import Mathlib

/-!
Verification of `thermal-convert` (src/src/thermal-convert.py).

The program batch-converts thermal JPEG images to TIFF.  Its own logic is:
argument parsing, directory iteration with progress reporting, a two-entry
writer dispatch table, the Celsius→centikelvin pixel arithmetic, and an EXIF
subprocess wrapper.  We embed that logic shallowly:

* numpy float arrays of temperatures become `List (List ℚ)` with exact
  rational arithmetic (the scalar constants 273.15 and 100 are exact);
* `astype(np.uint16)` after `clip(0, 65535)` truncates a nonnegative value
  toward zero, i.e. takes the floor;
* `main`'s per-file loop becomes a recursive function producing a trace of
  events (decode, image write, progress print, exif copy) plus a completion
  flag; the external exiftool binary lookup and its per-file exit codes are
  oracles supplied as parameters;
* numpy in-place mutation (`+=`, `*=`) is modelled by a heap of arrays so
  that the no-mutation claim about the decoded frame is meaningful.
-/

namespace ThermalConvert

/-! ## Format writers (write_f32_celsius, write_u16_centikelvin) -/

/-- `numpy.clip(lo, hi)` on one scalar: `min (max x lo) hi`. -/
def npClipVal (lo hi x : ℚ) : ℚ := min (max x lo) hi

/-- `astype(np.uint16)` applied to a value already clipped into `[0, 65535]`:
C-style truncation toward zero, which on nonnegative values is the floor. -/
def ratToU16 (x : ℚ) : ℕ := (Int.floor x).toNat

/-- A raster as written to disk: either float32 data or uint16 data.
The float32 cast is modelled as exact (temperatures are far below the
magnitudes where float32 conversion matters for the claims considered). -/
inductive Raster where
  | f32 (data : List (List ℚ))
  | u16 (data : List (List ℕ))
deriving DecidableEq, Repr

/-- `write_f32_celsius`: `data = image.thermal_np.astype(np.float32)`;
the raster written is the frame itself (cast modelled as exact). -/
def write_f32_celsius (frame : List (List ℚ)) : Raster := Raster.f32 frame

/-- `write_u16_centikelvin` raster data, mirroring the source line by line:
`data = image.thermal_np.copy()`; `data += 273.15`; `data *= 100`;
`data = data.clip(0, 2**16 - 1).astype(np.uint16)`. -/
def write_u16_centikelvin (frame : List (List ℚ)) : List (List ℕ) :=
  let data := frame
  let data := data.map (fun row => row.map (fun x => x + 273.15))
  let data := data.map (fun row => row.map (fun x => x * 100))
  (data.map (fun row => row.map (fun x => npClipVal 0 (2 ^ 16 - 1) x))).map
    (fun row => row.map ratToU16)

/-- The per-pixel map realized by `write_u16_centikelvin`. -/
def ckPixel (c : ℚ) : ℕ := ratToU16 (npClipVal 0 65535 ((c + 273.15) * 100))

/-- Decoding a stored centikelvin integer back to Celsius, as described by
the spec: divide by 100 and subtract 273.15. -/
def ckDecode (n : ℕ) : ℚ := (n : ℚ) / 100 - 273.15

theorem write_u16_centikelvin_eq_map (frame : List (List ℚ)) :
    write_u16_centikelvin frame = frame.map (fun row => row.map ckPixel) := by
  have h : (2 ^ 16 - 1 : ℚ) = 65535 := by norm_num
  simp only [write_u16_centikelvin, List.map_map, Function.comp_def, h]
  rfl

theorem ckPixel_le (c : ℚ) : ckPixel c ≤ 65535 := by
  unfold ckPixel ratToU16
  have h1 : npClipVal 0 65535 ((c + 273.15) * 100) ≤ 65535 := min_le_right _ _
  have h2 : Int.floor (npClipVal 0 65535 ((c + 273.15) * 100)) ≤ (65535 : ℤ) := by
    have := Int.floor_le_floor h1
    simpa using this
  omega

theorem ckPixel_eval_100 : ckPixel 100 = 37315 := by
  unfold ckPixel ratToU16 npClipVal; norm_num; rfl

theorem ckPixel_eval_neg300 : ckPixel (-300) = 0 := by
  unfold ckPixel ratToU16 npClipVal; norm_num

theorem ckPixel_roundtrip (c : ℚ) (h1 : -273.15 ≤ c) (h2 : c ≤ 382.2) :
    |ckDecode (ckPixel c) - c| ≤ 1 / 100 := by
  have hx0 : 0 ≤ (c + 273.15) * 100 := by nlinarith
  have hx65535 : (c + 273.15) * 100 ≤ 65535 := by nlinarith
  have hclip : npClipVal 0 65535 ((c + 273.15) * 100) = (c + 273.15) * 100 := by
    unfold npClipVal; rw [max_eq_left hx0, min_eq_left hx65535]
  have hfl : (0 : ℤ) ≤ Int.floor ((c + 273.15) * 100) := Int.floor_nonneg.mpr hx0
  have h3 : ((Int.floor ((c + 273.15) * 100) : ℤ) : ℚ) ≤ (c + 273.15) * 100 :=
    Int.floor_le _
  have h4 : (c + 273.15) * 100 - 1 < ((Int.floor ((c + 273.15) * 100) : ℤ) : ℚ) :=
    Int.sub_one_lt_floor _
  unfold ckDecode ckPixel ratToU16
  rw [hclip]
  have hcast : (((Int.floor ((c + 273.15) * 100)).toNat : ℕ) : ℚ)
      = ((Int.floor ((c + 273.15) * 100) : ℤ) : ℚ) := by
    exact_mod_cast Int.toNat_of_nonneg hfl
  rw [hcast, abs_le]
  constructor <;> linarith

theorem ckPixel_below_abszero (c : ℚ) (hc : c < -273.15) : ckPixel c = 0 := by
  have hx : (c + 273.15) * 100 < 0 := by nlinarith
  unfold ckPixel npClipVal ratToU16
  rw [max_eq_right (le_of_lt hx), min_eq_left (by norm_num : (0 : ℚ) ≤ 65535)]
  norm_num

theorem ckPixel_above_max (c : ℚ) (hc : 382.2 < c) : ckPixel c = 65535 := by
  have hx : (65535 : ℚ) < (c + 273.15) * 100 := by nlinarith
  have hx0 : (0 : ℚ) ≤ (c + 273.15) * 100 := by linarith
  unfold ckPixel npClipVal ratToU16
  rw [max_eq_left hx0, min_eq_right (le_of_lt hx)]
  norm_num; rfl

/-! ## File naming (`file.with_suffix(".tiff").name`) -/

/-- Index of the last occurrence of a character in a list, if any. -/
def lastIdxOf (c : Char) : List Char → Option ℕ
  | [] => none
  | x :: xs =>
    match lastIdxOf c xs with
    | some i => some (i + 1)
    | none => if x = c then some 0 else none

/-- Length of the `pathlib` suffix of a file name: nonempty exactly when the
last dot sits strictly inside the name (index `i` with `0 < i < len - 1`),
in which case the suffix is the segment from that dot to the end. -/
def suffixLen (name : String) : ℕ :=
  let cs := name.toList
  match lastIdxOf '.' cs with
  | some i => if 0 < i ∧ i + 1 < cs.length then cs.length - i else 0
  | none => 0

/-- `pathlib.PurePath.with_suffix`: drop the existing suffix, if any, and
append the new one. -/
def withSuffix (name sfx : String) : String :=
  let cs := name.toList
  String.mk (cs.take (cs.length - suffixLen name)) ++ sfx

/-- `dest = out_dir / file.with_suffix(".tiff").name`, for a source file
given by its name within the input directory. -/
def destPath (outDir file : String) : String := outDir ++ "/" ++ withSuffix file ".tiff"

/-! ## Conversion driver (`main`) as a trace of events

The filesystem, the external decoder and the TIFF encoder are collaborators;
`main`'s own behavior is the order in which it invokes them and what it
prints.  We record that as a list of events.  The exiftool binary lookup
(`get_exif_binary`) and the per-file exit codes of the exiftool subprocess
are oracles passed in as parameters.  A run either completes (`true`) or
aborts on the first uncaught exception (`false`): `subprocess.run(...,
check=True)` raises on a non-zero exit and `main` has no handler around the
loop. -/

/-- One observable action of `main`. -/
inductive Event where
  | resolveExif
  | progress (cur tot : ℕ)
  | decode (file camType : String)
  | writeImage (format dest : String)
  | exifCopy (src dest : String)
deriving DecidableEq, Repr

/-- The parsed arguments that influence the trace (`args.type`,
`args.format`, `args.copy_exif`). -/
structure Args where
  camType : String
  format : String
  copy_exif : Bool
deriving Repr

/-- The body of `for i, file in enumerate(in_files)`: decode, write the
image, print progress `i+1/total`, then (when enabled) copy EXIF metadata.
`Exif.copy_exif` uses `check=True`, so a non-zero exit code raises
`CalledProcessError`, aborting the loop with no retry. -/
def runFiles (args : Args) (outDir : String) (exifExit : String → ℕ) (total : ℕ) :
    ℕ → List String → List Event × Bool
  | _, [] => ([], true)
  | i, file :: rest =>
    let dest := destPath outDir file
    let fileEvs : List Event :=
      [Event.decode file args.camType, Event.writeImage args.format dest,
       Event.progress (i + 1) total]
    if args.copy_exif then
      if exifExit file = 0 then
        ((fileEvs ++ [Event.exifCopy file dest])
            ++ (runFiles args outDir exifExit total (i + 1) rest).1,
          (runFiles args outDir exifExit total (i + 1) rest).2)
      else (fileEvs ++ [Event.exifCopy file dest], false)
    else
      (fileEvs ++ (runFiles args outDir exifExit total (i + 1) rest).1,
        (runFiles args outDir exifExit total (i + 1) rest).2)

/-- `main` after argument parsing: `in_files` is the list of regular-file
names from `in_dir.iterdir()`, `exifBinary` the result of the external
`get_exif_binary()` lookup (`none` when the executable cannot be located;
per the spec, `Exif.__init__` then fails fast with a fatal error).  Only
when `args.copy_exif` is set is `Exif()` constructed, before the initial
`0/total` progress line and before any file is processed. -/
def mainRun (args : Args) (inFiles : List String) (outDir : String)
    (exifBinary : Option String) (exifExit : String → ℕ) : List Event × Bool :=
  let total := inFiles.length
  if args.copy_exif then
    match exifBinary with
    | none => ([Event.resolveExif], false)
    | some _ =>
      (Event.resolveExif :: Event.progress 0 total ::
          (runFiles args outDir exifExit total 0 inFiles).1,
        (runFiles args outDir exifExit total 0 inFiles).2)
  else
    (Event.progress 0 total :: (runFiles args outDir exifExit total 0 inFiles).1,
      (runFiles args outDir exifExit total 0 inFiles).2)

/-! ### Trace projections -/

/-- The `(current, total)` pairs of the progress lines, in order. -/
def progressPairs (evs : List Event) : List (ℕ × ℕ) :=
  evs.filterMap fun e =>
    match e with
    | Event.progress c t => some (c, t)
    | _ => none

def PROGRESS_MSG : String := "Completed Files"

/-- The exact text printed for one progress update. -/
def progressLine (cur tot : ℕ) : String :=
  PROGRESS_MSG ++ ": " ++ toString cur ++ "/" ++ toString tot

/-- Everything the run writes to stdout (only progress lines are printed). -/
def stdoutLines (evs : List Event) : List String :=
  evs.filterMap fun e =>
    match e with
    | Event.progress c t => some (progressLine c t)
    | _ => none

def isDecode : Event → Bool
  | Event.decode _ _ => true
  | _ => false

def isExifCopy : Event → Bool
  | Event.exifCopy _ _ => true
  | _ => false

def isResolveExif : Event → Bool
  | Event.resolveExif => true
  | _ => false

def isProgOrDecode : Event → Bool
  | Event.progress _ _ => true
  | Event.decode _ _ => true
  | _ => false

/-- Destination paths of the image writes, in order. -/
def writeDests (evs : List Event) : List String :=
  evs.filterMap fun e =>
    match e with
    | Event.writeImage _ d => some d
    | _ => none

/-- Source files of the exiftool invocations, in order. -/
def exifSrcs (evs : List Event) : List String :=
  evs.filterMap fun e =>
    match e with
    | Event.exifCopy s _ => some s
    | _ => none

/-! ### Trace lemmas -/

theorem stdoutLines_eq_map (evs : List Event) :
    stdoutLines evs = (progressPairs evs).map (fun p => progressLine p.1 p.2) := by
  induction evs with
  | nil => rfl
  | cons e rest ih =>
    cases e <;> simp [stdoutLines, progressPairs, List.filterMap_cons] at ih ⊢ <;>
      exact ih

theorem runFiles_ok_progressPairs (args : Args) (outDir : String)
    (exifExit : String → ℕ) (total : ℕ) :
    ∀ (files : List String) (i : ℕ),
      (runFiles args outDir exifExit total i files).2 = true →
      progressPairs (runFiles args outDir exifExit total i files).1
        = (List.range' (i + 1) files.length).map (fun k => (k, total))
  | [], i, _ => by simp [runFiles, progressPairs]
  | file :: rest, i, hok => by
    by_cases hc : args.copy_exif
    · by_cases he : exifExit file = 0
      · have hok2 : (runFiles args outDir exifExit total (i + 1) rest).2 = true := by
          simpa [runFiles, hc, he] using hok
        have ih := runFiles_ok_progressPairs args outDir exifExit total rest (i + 1) hok2
        simp [runFiles, hc, he, progressPairs, List.filterMap_append,
          List.filterMap_cons, List.range'_succ] at ih ⊢
        exact ih
      · exfalso
        simp [runFiles, hc, he] at hok
    · have hok2 : (runFiles args outDir exifExit total (i + 1) rest).2 = true := by
        simpa [runFiles, hc] using hok
      have ih := runFiles_ok_progressPairs args outDir exifExit total rest (i + 1) hok2
      simp [runFiles, hc, progressPairs, List.filterMap_append,
        List.filterMap_cons, List.range'_succ] at ih ⊢
      exact ih

theorem runFiles_ok_filter_progdec (args : Args) (outDir : String)
    (exifExit : String → ℕ) (total : ℕ) :
    ∀ (files : List String) (i : ℕ),
      (runFiles args outDir exifExit total i files).2 = true →
      (runFiles args outDir exifExit total i files).1.filter isProgOrDecode
        = (List.enumFrom i files).flatMap
            (fun p => [Event.decode p.2 args.camType, Event.progress (p.1 + 1) total])
  | [], i, _ => by simp [runFiles]
  | file :: rest, i, hok => by
    by_cases hc : args.copy_exif
    · by_cases he : exifExit file = 0
      · have hok2 : (runFiles args outDir exifExit total (i + 1) rest).2 = true := by
          simpa [runFiles, hc, he] using hok
        have ih := runFiles_ok_filter_progdec args outDir exifExit total rest (i + 1) hok2
        simp [runFiles, hc, he, List.filter_append, List.enumFrom_cons,
          isProgOrDecode] at ih ⊢
        exact ih
      · exfalso
        simp [runFiles, hc, he] at hok
    · have hok2 : (runFiles args outDir exifExit total (i + 1) rest).2 = true := by
        simpa [runFiles, hc] using hok
      have ih := runFiles_ok_filter_progdec args outDir exifExit total rest (i + 1) hok2
      simp [runFiles, hc, List.filter_append, List.enumFrom_cons, isProgOrDecode] at ih ⊢
      exact ih

theorem runFiles_ok_writeDests (args : Args) (outDir : String)
    (exifExit : String → ℕ) (total : ℕ) :
    ∀ (files : List String) (i : ℕ),
      (runFiles args outDir exifExit total i files).2 = true →
      writeDests (runFiles args outDir exifExit total i files).1
        = files.map (destPath outDir)
  | [], i, _ => by simp [runFiles, writeDests]
  | file :: rest, i, hok => by
    by_cases hc : args.copy_exif
    · by_cases he : exifExit file = 0
      · have hok2 : (runFiles args outDir exifExit total (i + 1) rest).2 = true := by
          simpa [runFiles, hc, he] using hok
        have ih := runFiles_ok_writeDests args outDir exifExit total rest (i + 1) hok2
        simp [runFiles, hc, he, writeDests, List.filterMap_append,
          List.filterMap_cons] at ih ⊢
        exact ih
      · exfalso
        simp [runFiles, hc, he] at hok
    · have hok2 : (runFiles args outDir exifExit total (i + 1) rest).2 = true := by
        simpa [runFiles, hc] using hok
      have ih := runFiles_ok_writeDests args outDir exifExit total rest (i + 1) hok2
      simp [runFiles, hc, writeDests, List.filterMap_append, List.filterMap_cons] at ih ⊢
      exact ih

theorem runFiles_disabled_no_exifCopy (args : Args) (outDir : String)
    (exifExit : String → ℕ) (total : ℕ) (hc : args.copy_exif = false) :
    ∀ (files : List String) (i : ℕ),
      ((runFiles args outDir exifExit total i files).1.countP isExifCopy) = 0
  | [], i => by simp [runFiles]
  | file :: rest, i => by
    have ih := runFiles_disabled_no_exifCopy args outDir exifExit total hc rest (i + 1)
    simp [runFiles, hc, List.countP_append, List.countP_cons, isExifCopy] at ih ⊢
    exact ih

theorem runFiles_no_resolve (args : Args) (outDir : String)
    (exifExit : String → ℕ) (total : ℕ) :
    ∀ (files : List String) (i : ℕ),
      ((runFiles args outDir exifExit total i files).1.countP isResolveExif) = 0
  | [], i => by simp [runFiles]
  | file :: rest, i => by
    have ih := runFiles_no_resolve args outDir exifExit total rest (i + 1)
    by_cases hc : args.copy_exif <;> by_cases he : exifExit file = 0 <;>
      simp [runFiles, hc, he, List.countP_append, List.countP_cons, isResolveExif] at ih ⊢ <;>
      exact ih

theorem runFiles_first_fail (args : Args) (outDir : String)
    (exifExit : String → ℕ) (total : ℕ) (hc : args.copy_exif = true)
    (f : String) (hf : exifExit f ≠ 0) :
    ∀ (pre post : List String) (i : ℕ),
      (∀ g ∈ pre, exifExit g = 0) →
      (runFiles args outDir exifExit total i (pre ++ f :: post)).2 = false ∧
      exifSrcs (runFiles args outDir exifExit total i (pre ++ f :: post)).1
        = pre ++ [f] ∧
      ((runFiles args outDir exifExit total i (pre ++ f :: post)).1.countP isDecode)
        = pre.length + 1
  | [], post, i, _ => by
    simp [runFiles, hc, hf, exifSrcs, List.filterMap_append, List.filterMap_cons,
      List.countP_append, List.countP_cons, isDecode, isExifCopy]
  | g :: pre, post, i, hpre => by
    have hg : exifExit g = 0 := hpre g (List.mem_cons_self g pre)
    have ih := runFiles_first_fail args outDir exifExit total hc f hf pre post (i + 1)
      (fun x hx => hpre x (List.mem_cons_of_mem g hx))
    simp [runFiles, hc, hg, exifSrcs, List.filterMap_append, List.filterMap_cons,
      List.countP_append, List.countP_cons, isDecode] at ih ⊢
    simp [ih]

/-! ## Writer dispatch table and the format argument

`parse_args` declares `--format` with `choices=IMAGE_WRITERS.keys()`, and
`main` selects `IMAGE_WRITERS[args.format]`. -/

/-- `IMAGE_WRITERS`, as an association list in source order. -/
def IMAGE_WRITERS : List (String × (List (List ℚ) → Raster)) :=
  [("celsius", write_f32_celsius),
   ("centikelvin", fun frame => Raster.u16 (write_u16_centikelvin frame))]

/-- The `--format` values the argument parser accepts: exactly the keys of
`IMAGE_WRITERS`. -/
def formatChoices : List String := IMAGE_WRITERS.map Prod.fst

/-- `argparse` rejects a `--format` value outside `choices`. -/
def formatAccepted (fmt : String) : Bool := formatChoices.contains fmt

/-! ## Numpy array aliasing model (for the no-mutation claim)

Whether a writer mutates the decoded frame is a statement about array
aliasing, so here arrays live in a heap and are passed by reference, the way
numpy arrays are: `copy()`/`astype()` allocate, `+=`/`*=` write in place
through the reference. -/

/-- A heap of 2-D arrays; an array is referred to by its index. -/
structure Heap where
  arrays : List (List (List ℚ))
deriving Repr

/-- Dereference (out-of-range reads give the empty array). -/
def Heap.get (h : Heap) (r : ℕ) : List (List ℚ) := h.arrays.getD r []

/-- Allocate a fresh array, returning the new heap and the reference. -/
def Heap.alloc (h : Heap) (a : List (List ℚ)) : Heap × ℕ :=
  (⟨h.arrays ++ [a]⟩, h.arrays.length)

/-- Overwrite the array behind a reference. -/
def Heap.put (h : Heap) (r : ℕ) (a : List (List ℚ)) : Heap :=
  ⟨h.arrays.set r a⟩

/-- `arr.copy()`: allocate a fresh array with the same contents. -/
def npCopy (h : Heap) (r : ℕ) : Heap × ℕ := h.alloc (h.get r)

/-- `arr += c`: in-place scalar addition through the reference. -/
def npIAddScalar (h : Heap) (r : ℕ) (c : ℚ) : Heap :=
  h.put r ((h.get r).map (fun row => row.map (fun x => x + c)))

/-- `arr *= c`: in-place scalar multiplication through the reference. -/
def npIMulScalar (h : Heap) (r : ℕ) (c : ℚ) : Heap :=
  h.put r ((h.get r).map (fun row => row.map (fun x => x * c)))

/-- `write_f32_celsius` with explicit array effects:
`image.thermal_np.astype(np.float32)` allocates a new array; the frame is
only read. -/
def write_f32_celsius_effect (h : Heap) (frame : ℕ) : Heap × Raster :=
  let p := h.alloc (h.get frame)
  (p.1, Raster.f32 (p.1.get p.2))

/-- `write_u16_centikelvin` with explicit array effects:
`image.thermal_np.copy()` allocates, `+= 273.15` and `*= 100` mutate the
copy in place, and `clip(0, 2**16 - 1).astype(np.uint16)` produces the final
uint16 data (a fresh array, rebinding `data`). -/
def write_u16_centikelvin_effect (h : Heap) (frame : ℕ) : Heap × Raster :=
  let p := npCopy h frame
  let h1 := npIAddScalar p.1 p.2 273.15
  let h2 := npIMulScalar h1 p.2 100
  let out :=
    ((h2.get p.2).map (fun row => row.map (fun x => npClipVal 0 (2 ^ 16 - 1) x))).map
      (fun row => row.map ratToU16)
  (h2, Raster.u16 out)

theorem set_append_len {α : Type} (l : List α) (a b : α) :
    (l ++ [a]).set l.length b = l ++ [b] := by
  induction l with
  | nil => rfl
  | cons x xs ih => simp [List.set, ih]

theorem getD_append_fresh {α : Type} (l : List α) (d : α) (r : ℕ) (a : α) :
    r ≠ l.length → (l ++ [a]).getD r d = l.getD r d := by
  intro hr
  rcases Nat.lt_or_ge r l.length with h | h
  · rw [List.getD_append _ _ _ _ h]
  · have h2 : l.length < r := lt_of_le_of_ne h (fun he => hr he.symm)
    rw [List.getD_eq_default _ _ (by simpa using h2)]
    rw [List.getD_eq_default]
    simpa using Nat.le_of_lt h2

theorem getD_append_len {α : Type} (l : List α) (a d : α) :
    (l ++ [a]).getD l.length d = a := by
  rw [List.getD_append_right _ _ _ _ (le_refl _)]
  simp

theorem celsius_effect_get (h : Heap) (r : ℕ) :
    (write_f32_celsius_effect h r).1.get r = h.get r := by
  unfold write_f32_celsius_effect Heap.alloc Heap.get
  simp only
  rcases eq_or_ne r h.arrays.length with he | hne
  · subst he
    exact getD_append_len _ _ _
  · exact getD_append_fresh _ _ _ _ hne

theorem ck_effect_arrays (h : Heap) (r : ℕ) :
    (write_u16_centikelvin_effect h r).1.arrays
      = h.arrays ++ [((h.get r).map (fun row => row.map (fun x => x + 273.15))).map
          (fun row => row.map (fun x => x * 100))] := by
  unfold write_u16_centikelvin_effect npCopy npIAddScalar npIMulScalar
  unfold Heap.alloc Heap.put Heap.get
  simp only [getD_append_len, set_append_len]

theorem ck_effect_get (h : Heap) (r : ℕ) :
    (write_u16_centikelvin_effect h r).1.get r = h.get r := by
  have ha := ck_effect_arrays h r
  show (write_u16_centikelvin_effect h r).1.arrays.getD r [] = h.get r
  rw [ha]
  rcases eq_or_ne r h.arrays.length with he | hne
  · subst he
    rw [getD_append_len]
    have hz : h.get h.arrays.length = [] := by
      unfold Heap.get
      exact List.getD_eq_default _ _ (le_refl _)
    rw [hz]
    rfl
  · exact getD_append_fresh _ _ _ _ hne

theorem ck_effect_raster (h : Heap) (r : ℕ) :
    (write_u16_centikelvin_effect h r).2 = Raster.u16 (write_u16_centikelvin (h.get r)) := by
  unfold write_u16_centikelvin_effect npCopy npIAddScalar npIMulScalar
  unfold Heap.alloc Heap.put Heap.get write_u16_centikelvin
  simp only [getD_append_len, set_append_len]

/-! ## Claims -/

/-- C1: for every decoded frame, `write_u16_centikelvin` produces the raster
whose value at each pixel is the Celsius value plus 273.15, times 100,
clamped to [0, 65535] and cast to an unsigned 16-bit integer; a constant
frame of 100.0 °C yields the constant value 37315, and a frame of
-300.0 °C yields the clamped value 0. -/
theorem C1_centikelvin_raster (frame : List (List ℚ)) :
    write_u16_centikelvin frame
      = frame.map (fun row => row.map
          (fun c => ratToU16 (npClipVal 0 65535 ((c + 273.15) * 100)))) ∧
    write_u16_centikelvin [[100]] = [[37315]] ∧
    write_u16_centikelvin [[-300]] = [[0]] := by
  refine ⟨write_u16_centikelvin_eq_map frame, ?_, ?_⟩ <;>
    simp [write_u16_centikelvin_eq_map, ckPixel_eval_100, ckPixel_eval_neg300]

/-- C2 as stated is false: 382.85 °C lies inside the claimed round-trip
range [-273.15, 382.85], but the stored value saturates at 65535 = 655.35 K
= 382.20 °C, so decoding recovers 382.20 °C — an error of 0.65 °C, far over
±0.01. -/
theorem C2_counterexample :
    write_u16_centikelvin [[(38285 / 100 : ℚ)]] = [[65535]] ∧
    ¬ (|ckDecode 65535 - (38285 / 100 : ℚ)| ≤ 1 / 100) := by
  constructor
  · have h : ckPixel (38285 / 100) = 65535 := ckPixel_above_max _ (by norm_num)
    simp [write_u16_centikelvin_eq_map, h]
  · unfold ckDecode
    rw [abs_of_nonpos (by norm_num)]
    norm_num

/-- C2 (amended): encoding with `write_u16_centikelvin` and decoding back
(stored value / 100 - 273.15) recovers every Celsius value in
[-273.15, 382.20] within ±0.01 °C; values below -273.15 °C saturate to 0 and
values above 382.20 °C saturate to 65535, never wrapping or erroring (the
stored value is always at most 65535). -/
theorem C2_centikelvin_roundtrip (c : ℚ) :
    write_u16_centikelvin [[c]] = [[ckPixel c]] ∧
    (-273.15 ≤ c → c ≤ 382.2 → |ckDecode (ckPixel c) - c| ≤ 1 / 100) ∧
    (c < -273.15 → ckPixel c = 0) ∧
    (382.2 < c → ckPixel c = 65535) ∧
    ckPixel c ≤ 65535 :=
  ⟨by simp [write_u16_centikelvin_eq_map], ckPixel_roundtrip c,
    ckPixel_below_abszero c, ckPixel_above_max c, ckPixel_le c⟩

/-- Witness for C2: the round-trip bound at 25 °C and both saturation
directions at concrete out-of-range inputs. -/
theorem C2_centikelvin_roundtrip_witness :
    |ckDecode (ckPixel 25) - 25| ≤ 1 / 100 ∧
    ckPixel (-300) = 0 ∧ ckPixel 400 = 65535 :=
  ⟨(C2_centikelvin_roundtrip 25).2.1 (by norm_num) (by norm_num),
   (C2_centikelvin_roundtrip (-300)).2.2.1 (by norm_num),
   (C2_centikelvin_roundtrip 400).2.2.2.1 (by norm_num)⟩

/-- C3 as stated is false: a directory with one regular file yields two
progress lines (`0/1` and `1/1`), not "exactly N = 1"; the numerators 0..N
are N+1 values. -/
theorem C3_counterexample :
    (progressPairs (mainRun ⟨"dji", "celsius", false⟩ ["a.jpg"] "out" none
        (fun _ => 0)).1).length = 2 ∧ (2 : ℕ) ≠ 1 :=
  ⟨by rfl, by decide⟩

/-- C3 (amended): a complete run over N input files emits exactly N+1
progress lines, with strictly increasing numerators 0, 1, ..., N and the
constant denominator N. -/
theorem C3_progress_lines (args : Args) (files : List String) (outDir : String)
    (bin : Option String) (exifExit : String → ℕ)
    (hok : (mainRun args files outDir bin exifExit).2 = true) :
    progressPairs (mainRun args files outDir bin exifExit).1
      = (List.range (files.length + 1)).map (fun k => (k, files.length)) ∧
    (progressPairs (mainRun args files outDir bin exifExit).1).length
      = files.length + 1 := by
  have hrange : (List.range (files.length + 1)).map (fun k => (k, files.length))
      = (0, files.length)
          :: (List.range' 1 files.length).map (fun k => (k, files.length)) := by
    rw [List.range_eq_range', List.range'_succ]
    rfl
  have hmain : progressPairs (mainRun args files outDir bin exifExit).1
      = (List.range (files.length + 1)).map (fun k => (k, files.length)) := by
    rw [hrange]
    by_cases hc : args.copy_exif = true
    · cases bin with
      | none => simp [mainRun, hc] at hok
      | some b =>
        have hok2 : (runFiles args outDir exifExit files.length 0 files).2 = true := by
          simpa [mainRun, hc] using hok
        have h := runFiles_ok_progressPairs args outDir exifExit files.length files 0 hok2
        simp [mainRun, hc, progressPairs, List.filterMap_cons] at h ⊢
        exact h
    · have hok2 : (runFiles args outDir exifExit files.length 0 files).2 = true := by
        simpa [mainRun, hc] using hok
      have h := runFiles_ok_progressPairs args outDir exifExit files.length files 0 hok2
      simp [mainRun, hc, progressPairs, List.filterMap_cons] at h ⊢
      exact h
  exact ⟨hmain, by rw [hmain]; simp⟩

/-- Witness for C3 (amended): a complete 2-file run prints the three pairs
0/2, 1/2, 2/2. -/
theorem C3_progress_lines_witness :
    progressPairs (mainRun ⟨"dji", "celsius", false⟩ ["a.jpg", "b.jpg"] "out" none
        (fun _ => 0)).1 = [(0, 2), (1, 2), (2, 2)] := by
  have h := C3_progress_lines ⟨"dji", "celsius", false⟩ ["a.jpg", "b.jpg"] "out" none
    (fun _ => 0) (by rfl)
  rw [h.1]
  rfl

/-- C4: every progress line has the exact text
`Completed Files: <completed>/<total>`; the count starts at 0, printed once
before any file is decoded, increments by one per completed file, and the
denominator is the number of input files throughout. -/
theorem C4_progress_format (args : Args) (files : List String) (outDir : String)
    (bin : Option String) (exifExit : String → ℕ)
    (hok : (mainRun args files outDir bin exifExit).2 = true) :
    stdoutLines (mainRun args files outDir bin exifExit).1
      = (List.range (files.length + 1)).map (fun k => progressLine k files.length) ∧
    (mainRun args files outDir bin exifExit).1.filter isProgOrDecode
      = Event.progress 0 files.length
          :: (List.enumFrom 0 files).flatMap
            (fun p => [Event.decode p.2 args.camType,
                       Event.progress (p.1 + 1) files.length]) := by
  constructor
  · rw [stdoutLines_eq_map, (C3_progress_lines args files outDir bin exifExit hok).1]
    rw [List.map_map]
    rfl
  · by_cases hc : args.copy_exif = true
    · cases bin with
      | none => simp [mainRun, hc] at hok
      | some b =>
        have hok2 : (runFiles args outDir exifExit files.length 0 files).2 = true := by
          simpa [mainRun, hc] using hok
        have h := runFiles_ok_filter_progdec args outDir exifExit files.length files 0 hok2
        simp [mainRun, hc, List.filter_cons, isProgOrDecode] at h ⊢
        exact h
    · have hok2 : (runFiles args outDir exifExit files.length 0 files).2 = true := by
        simpa [mainRun, hc] using hok
      have h := runFiles_ok_filter_progdec args outDir exifExit files.length files 0 hok2
      simp [mainRun, hc, List.filter_cons, isProgOrDecode] at h ⊢
      exact h


/-- Witness for C4: a complete 1-file run prints exactly the two lines of
the documented form, and the reduced trace interleaves as specified. -/
theorem C4_progress_format_witness :
    stdoutLines (mainRun ⟨"dji", "celsius", false⟩ ["a.jpg"] "out" none
        (fun _ => 0)).1 = ["Completed Files: 0/1", "Completed Files: 1/1"] := by
  have h := C4_progress_format ⟨"dji", "celsius", false⟩ ["a.jpg"] "out" none
    (fun _ => 0) (by rfl)
  rw [h.1]
  rfl

/-- C5: a complete run writes exactly one output raster per input file, in
order, at `out_dir / (file name with its extension replaced by ".tiff")`. -/
theorem C5_destinations (args : Args) (files : List String) (outDir : String)
    (bin : Option String) (exifExit : String → ℕ)
    (hok : (mainRun args files outDir bin exifExit).2 = true) :
    writeDests (mainRun args files outDir bin exifExit).1
      = files.map (fun f => outDir ++ "/" ++ withSuffix f ".tiff") ∧
    (writeDests (mainRun args files outDir bin exifExit).1).length = files.length := by
  have hmain : writeDests (mainRun args files outDir bin exifExit).1
      = files.map (fun f => outDir ++ "/" ++ withSuffix f ".tiff") := by
    by_cases hc : args.copy_exif = true
    · cases bin with
      | none => simp [mainRun, hc] at hok
      | some b =>
        have hok2 : (runFiles args outDir exifExit files.length 0 files).2 = true := by
          simpa [mainRun, hc] using hok
        have h := runFiles_ok_writeDests args outDir exifExit files.length files 0 hok2
        simp [writeDests, mainRun, hc, List.filterMap_cons, destPath] at h ⊢
        exact h
    · have hok2 : (runFiles args outDir exifExit files.length 0 files).2 = true := by
        simpa [mainRun, hc] using hok
      have h := runFiles_ok_writeDests args outDir exifExit files.length files 0 hok2
      simp [writeDests, mainRun, hc, List.filterMap_cons, destPath] at h ⊢
      exact h
  exact ⟨hmain, by rw [hmain]; simp⟩

/-- Witness for C5: destinations for `a.jpg`, `b.tar.gz` (only the last
extension is replaced) and `noext` (a `.tiff` extension is appended). -/
theorem C5_destinations_witness :
    writeDests (mainRun ⟨"dji", "celsius", false⟩ ["a.jpg", "b.tar.gz", "noext"] "out"
        none (fun _ => 0)).1
      = ["out/a.tiff", "out/b.tar.tiff", "out/noext.tiff"] := by
  have h := C5_destinations ⟨"dji", "celsius", false⟩ ["a.jpg", "b.tar.gz", "noext"]
    "out" none (fun _ => 0) (by rfl)
  rw [h.1]
  rfl

/-- C6: with `copy_exif` disabled the run never invokes the metadata
copier — the trace contains no exiftool invocation for any file. -/
theorem C6_no_exif_when_disabled (args : Args) (files : List String) (outDir : String)
    (bin : Option String) (exifExit : String → ℕ)
    (hc : args.copy_exif = false) :
    ((mainRun args files outDir bin exifExit).1.countP isExifCopy) = 0 := by
  have h := runFiles_disabled_no_exifCopy args outDir exifExit files.length hc files 0
  simp [mainRun, hc, List.countP_cons, isExifCopy] at h ⊢
  exact h

/-- Witness for C6: a concrete disabled run with a present binary and a
would-be-failing exit code still performs zero exiftool invocations. -/
theorem C6_no_exif_when_disabled_witness :
    ((mainRun ⟨"dji", "celsius", false⟩ ["a.jpg", "b.jpg"] "out" (some "exiftool")
        (fun _ => 1)).1.countP isExifCopy) = 0 :=
  C6_no_exif_when_disabled ⟨"dji", "celsius", false⟩ ["a.jpg", "b.jpg"] "out"
    (some "exiftool") (fun _ => 1) (by rfl)

/-- C7: the first non-zero exiftool exit aborts the whole run: the run ends
incomplete, the files after the failing one are never decoded, and each
processed file saw exactly one exiftool invocation (no retry). -/
theorem C7_exif_failure_aborts (args : Args) (pre post : List String) (f : String)
    (outDir b : String) (exifExit : String → ℕ)
    (hc : args.copy_exif = true) (hpre : ∀ g ∈ pre, exifExit g = 0)
    (hf : exifExit f ≠ 0) :
    (mainRun args (pre ++ f :: post) outDir (some b) exifExit).2 = false ∧
    exifSrcs (mainRun args (pre ++ f :: post) outDir (some b) exifExit).1
      = pre ++ [f] ∧
    ((mainRun args (pre ++ f :: post) outDir (some b) exifExit).1.countP isDecode)
      = pre.length + 1 := by
  have h := runFiles_first_fail args outDir exifExit (pre ++ f :: post).length hc f hf
    pre post 0 hpre
  simp [mainRun, hc, exifSrcs, List.filterMap_cons, List.countP_cons, isDecode] at h ⊢
  exact h

/-- Witness for C7: `a.jpg` fails exiftool, so the run aborts with one
invocation and one decode; `b.jpg` is never reached. -/
theorem C7_exif_failure_aborts_witness :
    (mainRun ⟨"dji", "celsius", true⟩ (([] : List String) ++ "a.jpg" :: ["b.jpg"]) "out"
        (some "exiftool") (fun s => if s = "a.jpg" then 1 else 0)).2 = false ∧
    exifSrcs (mainRun ⟨"dji", "celsius", true⟩ (([] : List String) ++ "a.jpg" :: ["b.jpg"])
        "out" (some "exiftool") (fun s => if s = "a.jpg" then 1 else 0)).1
      = ([] : List String) ++ ["a.jpg"] ∧
    ((mainRun ⟨"dji", "celsius", true⟩ (([] : List String) ++ "a.jpg" :: ["b.jpg"]) "out"
        (some "exiftool") (fun s => if s = "a.jpg" then 1 else 0)).1.countP isDecode)
      = List.length ([] : List String) + 1 :=
  C7_exif_failure_aborts ⟨"dji", "celsius", true⟩ [] ["b.jpg"] "a.jpg" "out" "exiftool"
    (fun s => if s = "a.jpg" then 1 else 0) (by rfl) (by intro g hg; cases hg) (by decide)

/-- C8: the exiftool binary is resolved exactly once per run, as the very
first action, and only when `copy_exif` is enabled; if it cannot be located
the run fails before decoding any file, while with `copy_exif` disabled the
run is identical whether or not the binary exists. -/
theorem C8_exif_resolution (args : Args) (files : List String) (outDir : String)
    (bin : Option String) (exifExit : String → ℕ) :
    (args.copy_exif = true → bin = none →
      (mainRun args files outDir bin exifExit).1 = [Event.resolveExif] ∧
      (mainRun args files outDir bin exifExit).2 = false ∧
      ((mainRun args files outDir bin exifExit).1.countP isDecode) = 0) ∧
    (args.copy_exif = true →
      ((mainRun args files outDir bin exifExit).1.countP isResolveExif) = 1 ∧
      (mainRun args files outDir bin exifExit).1.head? = some Event.resolveExif) ∧
    (args.copy_exif = false →
      ((mainRun args files outDir bin exifExit).1.countP isResolveExif) = 0 ∧
      mainRun args files outDir bin exifExit
        = mainRun args files outDir none exifExit) := by
  refine ⟨?_, ?_, ?_⟩
  · intro hc hb
    subst hb
    simp [mainRun, hc, List.countP_cons, isDecode]
  · intro hc
    cases bin with
    | none => simp [mainRun, hc, List.countP_cons, isResolveExif]
    | some b =>
      have h := runFiles_no_resolve args outDir exifExit files.length files 0
      simp [mainRun, hc, List.countP_cons, isResolveExif] at h ⊢
      exact h
  · intro hc
    have h := runFiles_no_resolve args outDir exifExit files.length files 0
    constructor
    · simp [mainRun, hc, List.countP_cons, isResolveExif] at h ⊢
      exact h
    · simp [mainRun, hc]

/-- Witness for C8: with the binary missing and `copy_exif` on, the run
stops with only the failed resolution in the trace; with `copy_exif` off,
the same missing binary is never resolved and the run completes. -/
theorem C8_exif_resolution_witness :
    (mainRun ⟨"dji", "celsius", true⟩ ["a.jpg"] "out" none (fun _ => 0)).1
      = [Event.resolveExif] ∧
    ((mainRun ⟨"dji", "celsius", false⟩ ["a.jpg"] "out" none (fun _ => 0)).1.countP
      isResolveExif) = 0 :=
  ⟨((C8_exif_resolution ⟨"dji", "celsius", true⟩ ["a.jpg"] "out" none
      (fun _ => 0)).1 (by rfl) (by rfl)).1,
   ((C8_exif_resolution ⟨"dji", "celsius", false⟩ ["a.jpg"] "out" none
      (fun _ => 0)).2.2 (by rfl)).1⟩

/-- C9: neither writer mutates the decoded frame: in the aliasing model both
writers leave the array behind the frame's reference unchanged, computing
the raster on a fresh array (a cast or an explicit copy). -/
theorem C9_writers_preserve_frame (h : Heap) (r : ℕ) :
    (write_f32_celsius_effect h r).1.get r = h.get r ∧
    (write_u16_centikelvin_effect h r).1.get r = h.get r :=
  ⟨celsius_effect_get h r, ck_effect_get h r⟩

/-- C10: every `--format` value the argument parser accepts is a key of the
writer table (`choices` is exactly `IMAGE_WRITERS.keys()`), so the writer
dispatch `IMAGE_WRITERS[args.format]` can never fail with a missing key. -/
theorem C10_dispatch_total (fmt : String) (hf : formatAccepted fmt = true) :
    (IMAGE_WRITERS.lookup fmt).isSome = true := by
  simp [formatAccepted, formatChoices, IMAGE_WRITERS] at hf
  rcases hf with h | h <;> subst h <;> rfl

/-- Witness for C10: the accepted value "centikelvin" resolves to a writer. -/
theorem C10_dispatch_total_witness :
    (IMAGE_WRITERS.lookup "centikelvin").isSome = true :=
  C10_dispatch_total "centikelvin" (by rfl)

end ThermalConvert
